import Mathlib

/-
Shallow embedding of the combat-rules core of the `flesh-wounds` tracker
(sources: src/meters.rs, src/combatants.rs, src/main.rs), together with
theorems checking the specification's claims about it.

Machine integers are embedded as `Int` (for Rust `i32`) and `Nat` (for
Rust `u32`).  The combat quantities that the claims range over stay far
inside the 32-bit range, and the places where Rust subtraction on `u32`
could underflow (and panic in a debug build) are noted at the relevant
definitions.
-/

namespace FleshWounds

/-! ## Meter (src/meters.rs)

`Meter<T>(T, T)` tracks a current value `.0` out of a maximum `.1`. -/

structure Meter (α : Type) where
  curr : α
  max : α
deriving DecidableEq, Repr

/-- `impl Add for Meter`: `Meter(self.1.min(self.0 + rhs), self.1)` — the
increasing operation clamps at the maximum.  (`AddAssign` is the same
update in place.) -/
def Meter.add [Min α] [Add α] (m : Meter α) (rhs : α) : Meter α :=
  ⟨min m.max (m.curr + rhs), m.max⟩

/-- `impl Sub for Meter`: `Meter(self.0 - rhs, self.1)` — the decreasing
operation does not clamp.  (`SubAssign` is the same update in place.  For
the `u32` instantiation, embedded at `Nat`, Rust subtraction panics on
underflow in a debug build; every call site in the sources guards the
subtrahend, and the corresponding theorems record those guards.) -/
def Meter.sub [Sub α] (m : Meter α) (rhs : α) : Meter α :=
  ⟨m.curr - rhs, m.max⟩

/-! ### Meter parsing (src/meters.rs, `impl FromStr for Meter`)

```rust
let terms : Vec<&str> = s.split("/").collect();
let curr_t = terms[0].parse::<T>()?;
let max_t = terms[1].parse::<T>()?;
Ok(Meter(curr_t, max_t))
```

`terms[1]` is an unchecked index: when the split yields a single field the
code panics rather than returning a `ParseIntError`.  The embedding keeps
the panic as a distinct outcome. -/

/-- Rust `str::split("/")`: the `/`-separated fields of a character
sequence (an empty input yields one empty field, exactly as in Rust). -/
def splitSlash : List Char → List (List Char)
  | [] => [[]]
  | c :: rest =>
    if c = '/' then [] :: splitSlash rest
    else
      match splitSlash rest with
      | [] => [[c]]
      | f :: fs => (c :: f) :: fs

/-- Model of Rust `str::parse::<i32>` on a field's characters: optional
single leading sign character, then one or more decimal digits, value
within the `i32` range; anything else is an error (`none`). -/
def parse_i32 (chars : List Char) : Option Int :=
  let sign : Int := match chars with
    | '-' :: _ => -1
    | _ => 1
  let ds : List Char := match chars with
    | '-' :: rest => rest
    | '+' :: rest => rest
    | _ => chars
  if ds = [] then none
  else if ds.all (fun c => c.isDigit) then
    let v : Int := sign * (ds.foldl (fun acc c => acc * 10 + (c.toNat - 48)) 0 : Nat)
    if -(2 ^ 31) ≤ v ∧ v ≤ 2 ^ 31 - 1 then some v else none
  else none

/-- Outcome of running `Meter::from_str`: a parsed meter, a propagated
`ParseIntError`, or a panic (out-of-bounds index). -/
inductive ParseOutcome (α : Type) where
  | ok (v : α)
  | parseError
  | panicked
deriving DecidableEq, Repr

/-- `Meter::from_str` for `Meter<i32>`: split on `/`, parse field 0
(propagating a parse error), index field 1 (panicking when absent), parse
it (propagating a parse error), and return the meter.  Fields beyond the
second are ignored. -/
def meter_from_str (s : String) : ParseOutcome (Meter Int) :=
  let terms := splitSlash s.data
  match parse_i32 (terms.headD []) with
  | none => .parseError
  | some a =>
    match terms.drop 1 with
    | [] => .panicked
    | t1 :: _ =>
      match parse_i32 t1 with
      | none => .parseError
      | some b => .ok ⟨a, b⟩

/-! ## Status (src/combatants.rs) -/

/-- `enum Status { Healthy, Stunned(u32), Dead }`. -/
inductive Status where
  | Healthy
  | Stunned (n : Nat)
  | Dead
deriving DecidableEq, Repr

/-- The strict comparison of the derived `Ord` on `Status`: variants in
declaration order `Healthy < Stunned(_) < Dead`, `Stunned` payloads
compared numerically. -/
def Status.ltb : Status → Status → Bool
  | .Healthy, .Healthy => false
  | .Healthy, _ => true
  | .Stunned _, .Healthy => false
  | .Stunned m, .Stunned n => m < n
  | .Stunned _, .Dead => true
  | .Dead, _ => false

/-- Severity payload of a `Stunned` status (`0` otherwise). -/
def Status.severity : Status → Nat
  | .Stunned n => n
  | _ => 0

/-- `Status::stun_lock(dam, hp)`: the eight-threshold cascade from
src/combatants.rs lines 491–511. -/
def Status.stun_lock (dam hp : Int) : Status :=
  if dam * 7 ≥ hp * 6 then .Stunned 8
  else if dam * 6 ≥ hp * 5 then .Stunned 7
  else if dam * 5 ≥ hp * 4 then .Stunned 6
  else if dam * 4 ≥ hp * 3 then .Stunned 5
  else if dam * 3 ≥ hp * 2 then .Stunned 4
  else if dam * 2 ≥ hp then .Stunned 3
  else if dam * 3 ≥ hp then .Stunned 2
  else if dam * 4 ≥ hp then .Stunned 1
  else .Healthy

/-- The claim's reading of the cascade: the first `k` in `7, 6, …, 2` with
`dam * k ≥ hp * (k - 1)` yields `Stunned(9 - k)`, then the two low checks
`dam*3 ≥ hp → Stunned(2)` and `dam*4 ≥ hp → Stunned(1)`, else `Healthy`. -/
def stunLockClaim (dam hp : Int) : Status :=
  match ([7, 6, 5, 4, 3, 2] : List Int).find? (fun k => dam * k ≥ hp * (k - 1)) with
  | some k => .Stunned (9 - k).toNat
  | none =>
    if dam * 3 ≥ hp then .Stunned 2
    else if dam * 4 ≥ hp then .Stunned 1
    else .Healthy

/-- The amended reading: the first `k` in `7, 6, …, 2` with
`dam * k ≥ hp * (k - 1)` yields `Stunned(k + 1)`, then the two low checks,
else `Healthy`. -/
def stunLockAmended (dam hp : Int) : Status :=
  match ([7, 6, 5, 4, 3, 2] : List Int).find? (fun k => dam * k ≥ hp * (k - 1)) with
  | some k => .Stunned (k + 1).toNat
  | none =>
    if dam * 3 ≥ hp then .Stunned 2
    else if dam * 4 ≥ hp then .Stunned 1
    else .Healthy

/-! ## Classes (src/combatants.rs) -/

/-- `enum Class`: the eleven character classes. -/
inductive Class where
  | Cleric | Druid | Fighter | Paladin | Ranger
  | Mage | Illusionist | Thief | Assassin | Monk | Bard
deriving DecidableEq, Repr

/-- `enum Classes`: a multi-class at a level, a single class at a level, or
a monster with hit dice. -/
inductive Classes where
  | Multi (name : List Class) (lvl : Nat)
  | Single (name : Class) (lvl : Nat)
  | Monster (magical : Bool) (hd : Nat)
deriving DecidableEq, Repr

/-! ## Combatant (src/combatants.rs) -/

/-- `struct Abilities`: the six ability scores. -/
structure Abilities where
  strength : Nat
  intelligence : Nat
  wisdom : Nat
  dexterity : Nat
  constitution : Nat
  charisma : Nat
deriving DecidableEq, Repr

/-- `struct Combatant` (src/combatants.rs lines 9–24).  `hp` is a
`Meter<i32>`, `attacks` a `Meter<u32>`. -/
structure Combatant where
  name : String
  «class» : Classes
  abilities : Option Abilities
  hp : Meter Int
  attacks : Meter Nat
  ac : Int
  thac0 : Nat
  status : Status
  team : Option Nat
  init : Option Nat
  dealt : Int
  recvd : Int
  round : Nat
deriving DecidableEq, Repr

namespace Combatant

/-- `const LVLD_DEAD : i32 = -10`. -/
def LVLD_DEAD : Int := -10

/-- `const UNLVLD_DEAD : i32 = -4`. -/
def UNLVLD_DEAD : Int := -4

/-- `const INIT_MOD : u32 = 12`. -/
def INIT_MOD : Nat := 12

/-- `Combatant::dead`: the hp floor below which the combatant dies —
`UNLVLD_DEAD` for monsters, `LVLD_DEAD` for everything else. -/
def dead (c : Combatant) : Int :=
  match c.«class» with
  | .Monster _ _ => UNLVLD_DEAD
  | _ => LVLD_DEAD

/-- `Combatant::update` (round advance): increment the round counter,
revert a stun to `Healthy`, refill attacks by adding the maximum (clamped
by the meter's increasing operation). -/
def update (c : Combatant) : Combatant :=
  let c := { c with round := c.round + 1 }
  let c :=
    match c.status with
    | .Stunned _ => { c with status := .Healthy }
    | _ => c
  { c with attacks := c.attacks.add c.attacks.max }

/-- `Combatant::get_init`: effective initiative from base initiative and
status.  (`i + INIT_MOD - x` is `u32` arithmetic in Rust; for the stun
severities the program produces, `x ≤ 8 < INIT_MOD`, no underflow
occurs and `Nat` subtraction agrees with it.) -/
def get_init (c : Combatant) : Option Nat :=
  c.init.map (fun i =>
    match c.status with
    | .Healthy => i + INIT_MOD * 2
    | .Stunned x => i + INIT_MOD - x
    | .Dead => 0)

/-- `Combatant::deal_hit`: add to the dealt-damage counter and spend one
attack.  (The `u32` decrement panics in Rust on underflow; callers guard
it with `can_attack`.) -/
def deal_hit (c : Combatant) (dam : Int) : Combatant :=
  { c with dealt := c.dealt + dam, attacks := c.attacks.sub 1 }

/-- `Combatant::recv_hit` (src/combatants.rs lines 434–454): add to the
received-damage counter; if not yet dead and the hit reaches the death
floor, die; otherwise escalate the status by `stun_lock` (spending
attacks on a new, greater stun) or retain it; finally decrement hp by the
unclamped meter subtraction. -/
def recv_hit (c : Combatant) (dam : Int) : Combatant :=
  let c := { c with recvd := c.recvd + dam }
  let c :=
    match c.status with
    | .Healthy | .Stunned _ =>
      if c.hp.curr - dam ≤ c.dead then
        { c with status := .Dead }
      else
        let new := Status.stun_lock dam c.hp.curr
        if Status.ltb c.status new then
          match new with
          | .Stunned x =>
            { c with status := new, attacks := c.attacks.sub (min x c.attacks.curr) }
          | _ => { c with status := new }
        else c
    | _ => c
  { c with hp := c.hp.sub dam }

/-- `Combatant::heal`: add to hp via the clamped meter addition. -/
def heal (c : Combatant) (dam : Int) : Combatant :=
  { c with hp := c.hp.add dam }

/-- `Combatant::xp`: `((dealt*10 + recvd*20 + team_bonus) as f64 * if
false { 1.1 } else { 1.0 }) as i32`.  The multiplier branch is hardcoded
to `false` (a `FIXME` in the source), so the `f64` round trip multiplies
by `1.0` and is the identity on every value in the `i32` range. -/
def xp (c : Combatant) (team_bonus : Int) : Int :=
  c.dealt * 10 + c.recvd * 20 + team_bonus

/-- Modelled from the spec: `Combatant::team_xp` is called from
`Battle::get_xp` in src/main.rs but its definition is absent from the
sources under src/; the spec defines `teamXpContribution(combatant)` as
`dealt*20`, the pool value a combatant contributes toward teammates'
bonus. -/
def team_xp (c : Combatant) : Int :=
  c.dealt * 20

end Combatant

/-! ## Roster (src/main.rs) -/

/-- Modelled from the spec: `CombatantBuilder` is referenced from
src/main.rs but its definition is absent from the sources under src/; the
spec describes it as a mandatory name plus optional slots for class
descriptor, hit-dice/level, health meter, action meter, armor rating,
team and base initiative. -/
structure CombatantBuilder where
  name : String
  «class» : Option Classes
  hd : Option Nat
  hp : Option (Meter Int)
  attacks : Option (Meter Nat)
  ac : Option Int
  team : Option Nat
  init : Option Nat
deriving DecidableEq, Repr

/-- `enum BattleRow { Done(Combatant), Building(CombatantBuilder) }`. -/
inductive BattleRow where
  | Done (c : Combatant)
  | Building (cb : CombatantBuilder)
deriving DecidableEq, Repr

/-- `BattleRow::done`: the combatant of a `Done` row. -/
def BattleRow.done : BattleRow → Option Combatant
  | .Done c => some c
  | .Building _ => none

/-- `struct Battle`, restricted to the fields the combat core reads and
writes (`combatants`, `round`, `pos`, `sel`); the remaining fields of the
source struct hold terminal/UI and autosave state that no core operation
consults. -/
structure Battle where
  combatants : List BattleRow
  round : Nat
  pos : Nat
  sel : Option Nat
deriving DecidableEq, Repr

/-- The ordering key `Battle::sort` pairs with each row: `Done` rows map
to `Some(get_init)`, `Building` rows to `None`. -/
def rowKey : BattleRow → Option (Option Nat)
  | .Done c => some c.get_init
  | .Building _ => none

/-- The filter of `Battle::sort`: `None` keys (building rows) are kept;
a `Some n` key is kept when the `Option`-valued initiative `n` exceeds
zero — a present initiative must be positive, and a row whose initiative
is unset (below `Some(0)` in the `Option` ordering) is not kept. -/
def keepKey : Option (Option Nat) → Bool
  | none => true
  | some (some e) => 0 < e
  | some none => false

/-- The `Option<u32>` leg of the derived comparison the sort uses
(`None` precedes `Some`, `Some` payloads compared numerically). -/
def optLe (a b : Option Nat) : Bool :=
  match a, b with
  | none, _ => true
  | some _, none => false
  | some x, some y => x ≤ y

/-- The derived comparison on the sort keys (`None` precedes `Some`). -/
def keyLe (a b : Option (Option Nat)) : Bool :=
  match a, b with
  | none, _ => true
  | some _, none => false
  | some x, some y => optLe x y

/-- `Battle::sort` (src/main.rs lines 446–464): pair each row with its
key, drop rows whose key fails the filter, stably sort the rest with the
comparator `b.0.cmp(&a.0)` (descending keys, `None` keys at the bottom),
keep the rows, and reset the cursor to 0. -/
def Battle.sort (b : Battle) : Battle :=
  let initiatives :=
    ((b.combatants.map (fun row => (rowKey row, row))).filter
      (fun p => keepKey p.1)).mergeSort (fun p q => keyLe q.1 p.1)
  { b with combatants := initiatives.map Prod.snd, pos := 0 }

/-- `Battle::get_xp` (src/main.rs lines 591–608): for a selected `Done`
row, sum `team_xp / n` (signed `i32` division truncating toward zero,
embedded as `Int.tdiv`)
over the `Done` rows sharing its team, with `n` the full roster length,
and return that row's `xp` with the team bonus. -/
def Battle.get_xp (b : Battle) : Option Int :=
  b.sel.bind (fun f =>
    (b.combatants[f]?.bind BattleRow.done).map (fun comb =>
      let n : Int := b.combatants.length
      let team_bonus := b.combatants.foldl (fun acc row =>
        match row.done with
        | some x => if x.team = comb.team then acc + (x.team_xp).tdiv n else acc
        | none => acc) 0
      comb.xp team_bonus))

/-! ## Concrete instances used to instantiate claims -/

/-- A healthy level-1 fighter at 5/5 hp, used to instantiate claims. -/
def sampleFighter : Combatant :=
  { name := "fighter", «class» := .Single .Fighter 1, abilities := none,
    hp := ⟨5, 5⟩, attacks := ⟨1, 1⟩, ac := 10, thac0 := 20,
    status := .Healthy, team := some 0, init := some 10,
    dealt := 0, recvd := 0, round := 1 }

/-- A dead monster, used to instantiate claims about the `Dead` status. -/
def sampleDead : Combatant :=
  { name := "goblin", «class» := .Monster false 1, abilities := none,
    hp := ⟨-5, 7⟩, attacks := ⟨1, 1⟩, ac := 10, thac0 := 20,
    status := .Dead, team := some 1, init := some 3,
    dealt := 0, recvd := 0, round := 1 }

/-- A combatant with the claim C8 statistics: 100 damage dealt, 50
received. -/
def sampleVeteran : Combatant :=
  { name := "veteran", «class» := .Single .Fighter 4, abilities := none,
    hp := ⟨20, 20⟩, attacks := ⟨2, 2⟩, ac := 5, thac0 := 17,
    status := .Healthy, team := some 0, init := some 7,
    dealt := 100, recvd := 50, round := 3 }

/-- A stunned cleric on team 1, used in the roster instances. -/
def sampleStunned : Combatant :=
  { name := "cleric", «class» := .Single .Cleric 2, abilities := none,
    hp := ⟨4, 9⟩, attacks := ⟨1, 1⟩, ac := 8, thac0 := 20,
    status := .Stunned 5, team := some 1, init := some 10,
    dealt := 0, recvd := 5, round := 2 }

/-- An in-progress builder row, used in the roster instances. -/
def sampleBuilder : CombatantBuilder :=
  { name := "wip", «class» := none, hd := none, hp := none,
    attacks := none, ac := none, team := none, init := none }

/-- A roster with a healthy row, a stunned row, a dead row and a building
row, used to instantiate the sorting claim. -/
def sampleBattle6 : Battle :=
  { combatants := [.Done sampleFighter, .Done sampleStunned, .Done sampleDead,
      .Building sampleBuilder],
    round := 2, pos := 1, sel := none }

/-- A combatant with a negative dealt-damage total (reachable by dealing
a negative-damage hit), whose team-XP contribution is negative. -/
def sampleNeg : Combatant :=
  { name := "unlucky", «class» := .Single .Thief 1, abilities := none,
    hp := ⟨6, 6⟩, attacks := ⟨1, 1⟩, ac := 10, thac0 := 21,
    status := .Healthy, team := some 0, init := some 5,
    dealt := -1, recvd := 0, round := 1 }

/-- A three-row roster with `sampleNeg` selected, used to instantiate the
XP-distribution claim. -/
def sampleBattle7 : Battle :=
  { combatants := [.Done sampleNeg, .Done sampleStunned, .Building sampleBuilder],
    round := 1, pos := 0, sel := some 0 }

/-! ## Claim theorems -/

/-- The stun-lock cascade only ever returns `Healthy` or `Stunned`. -/
theorem stun_lock_ne_dead (dam hp : Int) : Status.stun_lock dam hp ≠ Status.Dead := by
  unfold Status.stun_lock
  split_ifs <;> simp

/-- The death floor only depends on the class descriptor. -/
theorem dead_eq (c : Combatant) :
    c.dead = (match c.«class» with
      | .Monster _ _ => (-4 : Int)
      | _ => (-10 : Int)) := by
  obtain ⟨nm, cl, ab, hp, ak, ac, th, st, tm, ini, de, re, ro⟩ := c
  cases cl <;> rfl

/-- Status after `recv_hit`, as a single conditional expression. -/
theorem recv_hit_status (c : Combatant) (dam : Int) :
    (c.recv_hit dam).status =
      if c.status = Status.Dead then c.status
      else if c.hp.curr - dam ≤ c.dead then Status.Dead
      else if Status.ltb c.status (Status.stun_lock dam c.hp.curr) then
        Status.stun_lock dam c.hp.curr
      else c.status := by
  obtain ⟨nm, cl, ab, hp, ak, ac, th, st, tm, ini, de, re, ro⟩ := c
  cases st <;> simp only [Combatant.recv_hit] <;> simp only [dead_eq] <;>
    first
      | rfl
      | (split_ifs <;> first | rfl | (split <;> rfl) | simp_all)

/-- Attack meter after `recv_hit`, as a single conditional expression. -/
theorem recv_hit_attacks (c : Combatant) (dam : Int) :
    (c.recv_hit dam).attacks =
      if c.status = Status.Dead then c.attacks
      else if c.hp.curr - dam ≤ c.dead then c.attacks
      else if Status.ltb c.status (Status.stun_lock dam c.hp.curr) then
        c.attacks.sub (min (Status.stun_lock dam c.hp.curr).severity c.attacks.curr)
      else c.attacks := by
  obtain ⟨nm, cl, ab, hp, ak, ac, th, st, tm, ini, de, re, ro⟩ := c
  cases st <;> simp only [Combatant.recv_hit] <;> simp only [dead_eq] <;>
    first
      | rfl
      | (split_ifs <;>
          first
            | rfl
            | (rcases hnew : Status.stun_lock dam hp.curr with _ | x | _ <;>
                simp_all [Status.severity, Meter.sub]))

/-- Claim C1, counterexample: at `damage = 10`, `hp = 10` the first
threshold that holds is `k = 7` (`10*7 ≥ 10*6`), so the claim's
`Stunned(9-k)` rule predicts `Stunned(2)`, but the code returns
`Stunned(8)`. -/
theorem claim_C1_counterexample :
    stunLockClaim 10 10 = Status.Stunned 2 ∧
    Status.stun_lock 10 10 = Status.Stunned 8 ∧
    Status.stun_lock 10 10 ≠ stunLockClaim 10 10 := by
  decide

/-- Claim C1 (amended): `stun_lock(d, h)` is evaluated as the descending
threshold checks `d*k ≥ h*(k-1)` for `k = 7` down to `2`, the first that
holds yielding `Stunned(k+1)` (not `Stunned(9-k)`); then the two lower
checks `d*3 ≥ h` yielding `Stunned(2)` and `d*4 ≥ h` yielding
`Stunned(1)`; and `Healthy` if no threshold holds. -/
theorem claim_C1 (dam hp : Int) :
    Status.stun_lock dam hp = stunLockAmended dam hp := by
  unfold Status.stun_lock stunLockAmended
  by_cases h7 : hp * 6 ≤ dam * 7
  · norm_num [List.find?_cons, h7]; rfl
  · by_cases h6 : hp * 5 ≤ dam * 6
    · norm_num [List.find?_cons, h7, h6]; rfl
    · by_cases h5 : hp * 4 ≤ dam * 5
      · norm_num [List.find?_cons, h7, h6, h5]; rfl
      · by_cases h4 : hp * 3 ≤ dam * 4
        · norm_num [List.find?_cons, h7, h6, h5, h4]; rfl
        · by_cases h3 : hp * 2 ≤ dam * 3
          · norm_num [List.find?_cons, h7, h6, h5, h4, h3]; rfl
          · by_cases h2 : hp ≤ dam * 2
            · norm_num [List.find?_cons, h7, h6, h5, h4, h3, h2]; rfl
            · norm_num [List.find?_cons, h7, h6, h5, h4, h3, h2]

/-- Claim C2, counterexample: `stun_lock(10, 10)` does not fail the
`k = 7` check — `10*7 ≥ 10*6` holds — and the result is not
`Stunned(3)`. -/
theorem claim_C2_counterexample :
    (10 : Int) * 7 ≥ 10 * 6 ∧ Status.stun_lock 10 10 ≠ Status.Stunned 3 := by
  decide

/-- Claim C2 (amended): for damage 10 against current hit points 10 the
very first threshold check `damage*7 ≥ hp*6` already succeeds, so
`stun_lock(10, 10) = Stunned(8)`. -/
theorem claim_C2 :
    Status.stun_lock 10 10 = Status.Stunned 8 ∧ (10 : Int) * 7 ≥ 10 * 6 := by
  decide

/-- Claim C3: for a combatant that is not already dead, `recv_hit` sets
the status to `Dead` exactly when `hp.curr - damage` reaches the
class-specific death floor, which is `-4` for a `Monster` descriptor and
`-10` for any leveled descriptor; when the floor is not reached, the hit
never produces `Dead`. -/
theorem claim_C3 (c : Combatant) (dam : Int) (h : c.status ≠ Status.Dead) :
    ((c.recv_hit dam).status = Status.Dead ↔ c.hp.curr - dam ≤ c.dead) ∧
    ((∃ m hd, c.«class» = Classes.Monster m hd) → c.dead = -4) ∧
    ((∀ m hd, c.«class» ≠ Classes.Monster m hd) → c.dead = -10) := by
  refine ⟨?_, ?_, ?_⟩
  · rw [recv_hit_status, if_neg h]
    split_ifs with hf hlt
    · exact ⟨fun _ => hf, fun _ => rfl⟩
    · exact ⟨fun he => absurd he (stun_lock_ne_dead dam c.hp.curr),
        fun hcond => absurd hcond hf⟩
    · exact ⟨fun he => absurd he h, fun hcond => absurd hcond hf⟩
  · rintro ⟨m, hd, hcl⟩
    simp [dead_eq, hcl]
  · intro hne
    rw [dead_eq]
    rcases hcl : c.«class» with _ | _ | ⟨m, hd⟩
    · rfl
    · rfl
    · exact absurd hcl (hne m hd)

/-- Witness for claim C3: the spec's own example, a leveled combatant at
5 hp receiving 20 damage (`5 - 20 = -15 ≤ -10`). -/
theorem claim_C3_witness :
    sampleFighter.status ≠ Status.Dead ∧
    (((sampleFighter.recv_hit 20).status = Status.Dead ↔
        sampleFighter.hp.curr - 20 ≤ sampleFighter.dead) ∧
      ((∃ m hd, sampleFighter.«class» = Classes.Monster m hd) → sampleFighter.dead = -4) ∧
      ((∀ m hd, sampleFighter.«class» ≠ Classes.Monster m hd) → sampleFighter.dead = -10)) :=
  ⟨by decide, claim_C3 sampleFighter 20 (by decide)⟩

/-- Claim C4: on a hit to a non-dead combatant that does not reach the
death floor, with `candidate = stun_lock(damage, hp before decrease)`:
when `candidate` exceeds the current status in the order
`Healthy < Stunned(n) < Dead`, the status becomes `candidate` and exactly
`min(severity(candidate), attacks.curr)` attack charges are consumed;
otherwise the status and the attack meter are unchanged. -/
theorem claim_C4 (c : Combatant) (dam : Int) (h1 : c.status ≠ Status.Dead)
    (h2 : ¬(c.hp.curr - dam ≤ c.dead)) :
    (Status.ltb c.status (Status.stun_lock dam c.hp.curr) = true →
      (c.recv_hit dam).status = Status.stun_lock dam c.hp.curr ∧
      (c.recv_hit dam).attacks.curr =
        c.attacks.curr - min (Status.stun_lock dam c.hp.curr).severity c.attacks.curr) ∧
    (Status.ltb c.status (Status.stun_lock dam c.hp.curr) = false →
      (c.recv_hit dam).status = c.status ∧
      (c.recv_hit dam).attacks.curr = c.attacks.curr) := by
  constructor <;> intro hlt
  · rw [recv_hit_status, recv_hit_attacks, if_neg h1, if_neg h1, if_neg h2, if_neg h2,
      if_pos hlt, if_pos hlt]
    exact ⟨rfl, rfl⟩
  · rw [recv_hit_status, recv_hit_attacks, if_neg h1, if_neg h1, if_neg h2, if_neg h2,
      if_neg (by simp [hlt]), if_neg (by simp [hlt])]
    exact ⟨rfl, rfl⟩

/-- Witness for claim C4: a healthy fighter at 5/5 hp hit for 5 — the
candidate `Stunned(8)` exceeds `Healthy`, and `min(8, 1) = 1` attack is
consumed. -/
theorem claim_C4_witness :
    sampleFighter.status ≠ Status.Dead ∧
    ¬(sampleFighter.hp.curr - 5 ≤ sampleFighter.dead) ∧
    ((Status.ltb sampleFighter.status (Status.stun_lock 5 sampleFighter.hp.curr) = true →
      (sampleFighter.recv_hit 5).status = Status.stun_lock 5 sampleFighter.hp.curr ∧
      (sampleFighter.recv_hit 5).attacks.curr =
        sampleFighter.attacks.curr -
          min (Status.stun_lock 5 sampleFighter.hp.curr).severity sampleFighter.attacks.curr) ∧
    (Status.ltb sampleFighter.status (Status.stun_lock 5 sampleFighter.hp.curr) = false →
      (sampleFighter.recv_hit 5).status = sampleFighter.status ∧
      (sampleFighter.recv_hit 5).attacks.curr = sampleFighter.attacks.curr)) :=
  ⟨by decide, by decide, claim_C4 sampleFighter 5 (by decide) (by decide)⟩

/-- Claim C5: `Dead` is terminal — `recv_hit` with any damage,
`deal_hit`, `heal` with any amount, and the round advance `update` all
leave a dead combatant's status equal to `Dead`. -/
theorem claim_C5 (c : Combatant) (h : c.status = Status.Dead) (dam amt : Int) :
    (c.recv_hit dam).status = Status.Dead ∧
    (c.deal_hit dam).status = Status.Dead ∧
    (c.heal amt).status = Status.Dead ∧
    c.update.status = Status.Dead := by
  refine ⟨?_, h, h, ?_⟩
  · rw [recv_hit_status, if_pos h]; exact h
  · obtain ⟨nm, cl, ab, hp, ak, ac, th, st, tm, ini, de, re, ro⟩ := c
    cases st with
    | Dead => rfl
    | Healthy => exact absurd h (by simp)
    | Stunned k => exact absurd h (by simp)

/-- Witness for claim C5: a dead monster hit for 3, dealing 3, healed
100, and advanced a round stays `Dead` throughout. -/
theorem claim_C5_witness :
    sampleDead.status = Status.Dead ∧
    ((sampleDead.recv_hit 3).status = Status.Dead ∧
      (sampleDead.deal_hit 3).status = Status.Dead ∧
      (sampleDead.heal 100).status = Status.Dead ∧
      sampleDead.update.status = Status.Dead) :=
  ⟨by decide, claim_C5 sampleDead (by decide) 3 100⟩

/-- Claim C8 (code bug): `Combatant::xp` hardcodes the scaling branch to
`false` (marked `FIXME` in the source) and the combatant record carries
no XP-bonus flag at all, so the result is always the unscaled
`dealt*10 + recvd*20 + teamBonus`; at the claim's inputs
(`dealt = 100`, `recvd = 50`, `teamBonus = 20`) the code yields `2020`,
never the scaled `⌊2020 * 1.1⌋ = 2222` the claim prescribes for a set
flag. -/
theorem claim_C8 :
    (∀ (c : Combatant) (team_bonus : Int),
      c.xp team_bonus = c.dealt * 10 + c.recvd * 20 + team_bonus) ∧
    sampleVeteran.xp 20 = 2020 ∧
    sampleVeteran.xp 20 ≠ 2222 :=
  ⟨fun _ _ => rfl, by decide, by decide⟩

/-- Claim C9, counterexample: `"1/2/3"` has three `/`-separated fields,
yet `Meter::from_str` succeeds on it (returning `Meter(1, 2)` and
silently ignoring the third field), and the one-field input `"5"` makes
the unchecked `terms[1]` index panic instead of returning a ParseError. -/
theorem claim_C9_counterexample :
    meter_from_str "1/2/3" = ParseOutcome.ok ⟨1, 2⟩ ∧
    (splitSlash "1/2/3".data).length = 3 ∧
    meter_from_str "5" = ParseOutcome.panicked := by
  decide

/-- Claim C9 (amended): `Meter::from_str` returns a ParseError exactly
when the first `/`-field is not an integer, or the first parses and a
second field exists but is not an integer; it succeeds — ignoring any
fields beyond the second — exactly when at least two fields exist and
the first two parse as integers, returning `Meter(first, second)`; and
a single-field input whose field parses as an integer panics on the
unchecked `terms[1]` index rather than returning a ParseError. -/
theorem claim_C9 (s : String) :
    (meter_from_str s = ParseOutcome.parseError ↔
      parse_i32 ((splitSlash s.data).headD []) = none ∨
      ((parse_i32 ((splitSlash s.data).headD [])).isSome ∧ 2 ≤ (splitSlash s.data).length ∧
        parse_i32 ((splitSlash s.data).getD 1 []) = none)) ∧
    (∀ a b : Int, meter_from_str s = ParseOutcome.ok ⟨a, b⟩ ↔
      parse_i32 ((splitSlash s.data).headD []) = some a ∧ 2 ≤ (splitSlash s.data).length ∧
      parse_i32 ((splitSlash s.data).getD 1 []) = some b) ∧
    (meter_from_str s = ParseOutcome.panicked ↔
      (parse_i32 ((splitSlash s.data).headD [])).isSome ∧ (splitSlash s.data).length = 1) := by
  rcases hsp : splitSlash s.data with _ | ⟨t0, rest⟩
  · simp [meter_from_str, hsp, show parse_i32 [] = none from rfl]
  · rcases h0 : parse_i32 t0 with _ | a
    · simp [meter_from_str, hsp, h0]
    · rcases rest with _ | ⟨t1, rest2⟩
      · simp [meter_from_str, hsp, h0]
      · rcases h1 : parse_i32 t1 with _ | b <;>
          simp [meter_from_str, hsp, h0, h1]

/-- Claim C10: `heal` changes only the health meter's current value,
clamping `curr + amount` at the maximum; the status (so a dead combatant
stays dead and a stun is not cleared), the attack meter, the damage
counters, the round counter and every other field are unchanged. -/
theorem claim_C10 (c : Combatant) (amt : Int) :
    (c.heal amt).hp.curr = min c.hp.max (c.hp.curr + amt) ∧
    (c.heal amt).hp.max = c.hp.max ∧
    (c.heal amt).status = c.status ∧
    (c.heal amt).attacks = c.attacks ∧
    (c.heal amt).dealt = c.dealt ∧
    (c.heal amt).recvd = c.recvd ∧
    (c.heal amt).round = c.round ∧
    (c.heal amt).name = c.name ∧
    (c.heal amt).«class» = c.«class» ∧
    (c.heal amt).abilities = c.abilities ∧
    (c.heal amt).ac = c.ac ∧
    (c.heal amt).thac0 = c.thac0 ∧
    (c.heal amt).team = c.team ∧
    (c.heal amt).init = c.init :=
  ⟨rfl, rfl, rfl, rfl, rfl, rfl, rfl, rfl, rfl, rfl, rfl, rfl, rfl, rfl⟩

/-! ### Roster claims -/

theorem optLe_trans {a b c : Option Nat} (h1 : optLe a b = true) (h2 : optLe b c = true) :
    optLe a c = true := by
  cases a <;> cases b <;> cases c <;> simp_all [optLe]
  omega

theorem optLe_total (a b : Option Nat) : optLe a b || optLe b a := by
  cases a <;> cases b <;> simp [optLe]
  omega

theorem keyLe_refl (a : Option (Option Nat)) : keyLe a a = true := by
  cases a with
  | none => rfl
  | some x => cases x <;> simp [keyLe, optLe]

theorem keyLe_trans {a b c : Option (Option Nat)} (h1 : keyLe a b = true)
    (h2 : keyLe b c = true) : keyLe a c = true := by
  cases a <;> cases b <;> cases c <;> simp_all [keyLe]
  exact optLe_trans h1 h2

theorem keyLe_total (a b : Option (Option Nat)) : keyLe a b || keyLe b a := by
  cases a <;> cases b <;> simp [keyLe]
  simpa using optLe_total _ _

/-- For a `Done` row with base initiative set: the sort filter keeps it
exactly when its effective initiative is positive, and (for the stun
severities the program produces) the effective initiative is positive
exactly when the row is not dead. -/
theorem keep_done_iff (c : Combatant) (e : Nat)
    (hsev : ∀ n, c.status = Status.Stunned n → n ≤ 8)
    (hie : c.get_init = some e) :
    (keepKey (rowKey (BattleRow.Done c)) = true ↔ 0 < e) ∧
    (0 < e ↔ c.status ≠ Status.Dead) := by
  rcases hi : c.init with _ | i
  · simp [Combatant.get_init, hi] at hie
  · rcases hst : c.status with _ | x | _ <;>
      simp only [Combatant.get_init, hi, hst, Option.map_some] at hie <;>
      injection hie with hie <;> subst hie
    · simp [keepKey, rowKey, Combatant.get_init, hi, hst, Combatant.INIT_MOD]
    · have hx := hsev x hst
      simp [keepKey, rowKey, Combatant.get_init, hi, hst, Combatant.INIT_MOD]
      omega
    · simp [keepKey, rowKey, Combatant.get_init, hi, hst]

/-- Claim C6: `Battle::sort` removes exactly the rows the key filter
rejects (a permutation of the kept rows survives); a `Done` row with base
initiative set is kept exactly when its key is positive, which happens
exactly when it is not `Dead`; `Building` rows are always kept; the
result is ordered by key descending, and rows of equal key keep their
relative order (the sort is stable); and the cursor is reset to 0. -/
theorem claim_C6 (b : Battle)
    (hsev : ∀ c n, BattleRow.Done c ∈ b.combatants → c.status = Status.Stunned n → n ≤ 8) :
    (b.sort).combatants.Perm (b.combatants.filter (fun r => keepKey (rowKey r))) ∧
    (∀ c e, BattleRow.Done c ∈ b.combatants → c.get_init = some e →
      ((keepKey (rowKey (BattleRow.Done c)) = true ↔ 0 < e) ∧
        (0 < e ↔ c.status ≠ Status.Dead))) ∧
    (∀ cb, keepKey (rowKey (BattleRow.Building cb)) = true) ∧
    List.Pairwise (fun r s => keyLe (rowKey s) (rowKey r) = true) (b.sort).combatants ∧
    (∀ k : Option (Option Nat),
      (b.sort).combatants.filter (fun r => decide (rowKey r = k)) =
        (b.combatants.filter (fun r => keepKey (rowKey r))).filter
          (fun r => decide (rowKey r = k))) ∧
    (b.sort).pos = 0 := by
  set L := b.combatants with hL
  set q : BattleRow → Bool := fun r => keepKey (rowKey r) with hq
  set pair : BattleRow → Option (Option Nat) × BattleRow :=
    fun row => (rowKey row, row) with hpair
  set le : (Option (Option Nat) × BattleRow) → (Option (Option Nat) × BattleRow) → Bool :=
    fun p q => keyLe q.1 p.1 with hle
  have hfm : (L.map pair).filter (fun p => keepKey p.1) = (L.filter q).map pair := by
    rw [List.filter_map]
    rfl
  set M : List (Option (Option Nat) × BattleRow) := (L.filter q).map pair with hM
  have hsort : (b.sort).combatants = (M.mergeSort le).map Prod.snd := by
    show (((L.map pair).filter (fun p => keepKey p.1)).mergeSort le).map Prod.snd = _
    rw [hfm]
  have hcomp : (Prod.snd ∘ pair) = fun (row : BattleRow) => row := rfl
  have hmapsnd : M.map Prod.snd = L.filter q := by
    rw [hM, List.map_map, hcomp, List.map_id']
  have htr : ∀ (p u v : Option (Option Nat) × BattleRow),
      le p u → le u v → le p v := fun p u v h1 h2 => keyLe_trans h2 h1
  have hto : ∀ (p u : Option (Option Nat) × BattleRow), le p u || le u p :=
    fun p u => keyLe_total u.1 p.1
  have hmemS : ∀ p ∈ M.mergeSort le, p.1 = rowKey p.2 := by
    intro p hp
    rw [List.mem_mergeSort, hM] at hp
    obtain ⟨r, hr, rfl⟩ := List.mem_map.mp hp
    rfl
  refine ⟨?_, ?_, ?_, ?_, ?_, ?_⟩
  · rw [hsort, ← hmapsnd]
    exact (List.mergeSort_perm M le).map Prod.snd
  · intro c e hmem hie
    exact keep_done_iff c e (fun n => hsev c n hmem) hie
  · intro cb
    rfl
  · rw [hsort, List.pairwise_map]
    have hpw : (M.mergeSort le).Pairwise (fun p u => le p u = true) :=
      List.sorted_mergeSort htr hto M
    exact hpw.imp_of_mem (fun ha hb h => by
      simp only [hle] at h
      simp only [← hmemS _ ha, ← hmemS _ hb]
      exact h)
  · intro k
    set pk : Option (Option Nat) × BattleRow → Bool := fun p => decide (p.1 = k) with hpk
    have hcpw : (M.filter pk).Pairwise (fun p u => le p u = true) := by
      apply List.pairwise_of_forall_mem_list
      intro p hp r hr
      have hp1 : p.1 = k := by simpa [hpk] using (List.mem_filter.mp hp).2
      have hr1 : r.1 = k := by simpa [hpk] using (List.mem_filter.mp hr).2
      simp only [hle]
      rw [hp1, hr1]
      exact keyLe_refl k
    have hsub0 : List.Sublist (M.filter pk) (M.mergeSort le) :=
      List.sublist_mergeSort htr hto hcpw (List.filter_sublist M)
    have hpkpk : (fun a => pk a && pk a) = pk := by
      funext a
      cases hpa : pk a <;> simp [hpa]
    have hsub : List.Sublist (M.filter pk) ((M.mergeSort le).filter pk) := by
      have h2 := hsub0.filter pk
      rwa [List.filter_filter, hpkpk] at h2
    have hpermf : ((M.mergeSort le).filter pk).Perm (M.filter pk) :=
      (List.mergeSort_perm M le).filter pk
    have heqf : (M.mergeSort le).filter pk = M.filter pk :=
      (hsub.eq_of_length hpermf.length_eq.symm).symm
    rw [hsort, List.filter_map]
    have hfilter_eq : (M.mergeSort le).filter
        ((fun r => decide (rowKey r = k)) ∘ Prod.snd) = (M.mergeSort le).filter pk := by
      apply List.filter_congr
      intro p hp
      simp only [Function.comp_apply, hpk, ← hmemS p hp]
    rw [hfilter_eq, heqf, hM, List.filter_map]
    have hpair_eq : (pk ∘ pair) = fun r => decide (rowKey r = k) := rfl
    rw [hpair_eq, List.map_map, hcomp, List.map_id']
  · rfl

/-- Witness for claim C6: the four-row roster with a healthy, a stunned,
a dead and a building row. -/
theorem claim_C6_witness :
    (∀ c n, BattleRow.Done c ∈ sampleBattle6.combatants →
      c.status = Status.Stunned n → n ≤ 8) ∧
    ((sampleBattle6.sort).combatants.Perm
        (sampleBattle6.combatants.filter (fun r => keepKey (rowKey r))) ∧
      (∀ c e, BattleRow.Done c ∈ sampleBattle6.combatants → c.get_init = some e →
        ((keepKey (rowKey (BattleRow.Done c)) = true ↔ 0 < e) ∧
          (0 < e ↔ c.status ≠ Status.Dead))) ∧
      (∀ cb, keepKey (rowKey (BattleRow.Building cb)) = true) ∧
      List.Pairwise (fun r s => keyLe (rowKey s) (rowKey r) = true)
        (sampleBattle6.sort).combatants ∧
      (∀ k : Option (Option Nat),
        (sampleBattle6.sort).combatants.filter (fun r => decide (rowKey r = k)) =
          (sampleBattle6.combatants.filter (fun r => keepKey (rowKey r))).filter
            (fun r => decide (rowKey r = k))) ∧
      (sampleBattle6.sort).pos = 0) := by
  have hsev : ∀ c n, BattleRow.Done c ∈ sampleBattle6.combatants →
      c.status = Status.Stunned n → n ≤ 8 := by
    intro c n hmem hst
    simp only [sampleBattle6, List.mem_cons, List.not_mem_nil, or_false,
      reduceCtorEq] at hmem
    rcases hmem with h | h | h
    · injection h with h
      subst h
      simp [sampleFighter] at hst
    · injection h with h
      subst h
      simp only [sampleStunned] at hst
      injection hst with hst
      omega
    · injection h with h
      subst h
      simp [sampleDead] at hst
  exact ⟨hsev, claim_C6 sampleBattle6 hsev⟩

/-- Folding the team-bonus accumulation of `Battle::get_xp` equals the
truncating-division sum over the matching `Done` rows. -/
theorem team_bonus_fold (rows : List BattleRow) (t : Option Nat) (n : Int) (init : Int) :
    rows.foldl (fun acc row =>
      match row.done with
      | some x => if x.team = t then acc + (x.team_xp).tdiv n else acc
      | none => acc) init
    = init + (((rows.filterMap BattleRow.done).filter (fun x => decide (x.team = t))).map
        (fun x => (x.team_xp).tdiv n)).sum := by
  induction rows generalizing init with
  | nil => simp
  | cons r rest ih =>
    cases hr : r.done with
    | none => simp [List.foldl_cons, hr, ih, List.filterMap_cons]
    | some x =>
      by_cases ht : x.team = t <;>
        simp [List.foldl_cons, hr, ih, List.filterMap_cons, ht]
      omega

/-- Claim C7 (amended): for a selected `Done` row, `get_xp` returns that
row's `xp` with a team bonus equal to the sum, over all `Done` rows whose
team equals the selected row's team, of `team_xp(row) / n` with `/` the
truncating (toward zero) signed integer division — not the flooring
division the claim states — where the denominator `n` is the total
roster row count including `Building` rows. -/
theorem claim_C7 (b : Battle) (f : Nat) (comb : Combatant)
    (hsel : b.sel = some f) (hrow : b.combatants[f]? = some (BattleRow.Done comb)) :
    b.get_xp = some (comb.xp
      ((((b.combatants.filterMap BattleRow.done).filter
          (fun x => decide (x.team = comb.team))).map
          (fun x => (x.team_xp).tdiv (b.combatants.length : Int))).sum)) := by
  unfold Battle.get_xp
  simp only [hsel, Option.some_bind, hrow]
  rw [show BattleRow.done (BattleRow.Done comb) = some comb from rfl]
  rw [Option.map_some']
  rw [team_bonus_fold]
  rw [Int.zero_add]

/-- Claim C7, counterexample: in the three-row roster with the selected
row's `dealt = -1` (`team_xp = -20`, `n = 3`), the code's truncating
division gives a bonus of `-6` and `get_xp = -16`, while the claim's
flooring division predicts a bonus of `-7` and an XP of `-17`. -/
theorem claim_C7_counterexample :
    sampleBattle7.sel = some 0 ∧
    sampleBattle7.combatants[0]? = some (BattleRow.Done sampleNeg) ∧
    (sampleBattle7.combatants.length : Int) = 3 ∧
    ((((sampleBattle7.combatants.filterMap BattleRow.done).filter
        (fun x => decide (x.team = sampleNeg.team))).map
        (fun x => Int.fdiv (x.team_xp) 3)).sum) = -7 ∧
    Combatant.xp sampleNeg (-7) = -17 ∧
    sampleBattle7.get_xp = some (-16) := by
  decide

/-- Witness for claim C7: the three-row roster with `sampleNeg`
selected. -/
theorem claim_C7_witness :
    sampleBattle7.sel = some 0 ∧
    sampleBattle7.combatants[0]? = some (BattleRow.Done sampleNeg) ∧
    sampleBattle7.get_xp = some (Combatant.xp sampleNeg
      ((((sampleBattle7.combatants.filterMap BattleRow.done).filter
          (fun x => decide (x.team = sampleNeg.team))).map
          (fun x => (x.team_xp).tdiv (sampleBattle7.combatants.length : Int))).sum)) :=
  ⟨rfl, rfl, claim_C7 sampleBattle7 0 sampleNeg rfl rfl⟩

end FleshWounds
